import Mathlib

/-!
Verification of the reconciliation engine of `rastreador_aprovados.py`.

Text is modelled as `List Nat` of Unicode code points (Python strings are
sequences of code points, and every position/length in the source is a
code-point count).  `Option (List Nat)` models a cell that may be NaN/None.
Similarity scores are exact rationals; the source compares IEEE floats, which
agree with the exact rationals on the thresholds used here.
-/

/-- Code points of a string literal, for writing concrete inputs. -/
def s2n (s : String) : List Nat := s.data.map (fun c => c.toNat)

/-- Python regex `\s` on the ASCII range (space, tab, LF, CR, FF, VT). -/
def isSpaceN (c : Nat) : Bool := c == 32 || c == 9 || c == 10 || c == 13 || c == 12 || c == 11

/-- Python regex `\d` on the ASCII range: the decimal digits `0`-`9`. -/
def isDigitoN (c : Nat) : Bool := decide (48 ≤ c ∧ c ≤ 57)

/-- Python `str.upper` on the ASCII and Latin-1 letter ranges
(`a`-`z` and `à`-`þ` except `÷` shift down by 32). -/
def pyUpperN (c : Nat) : Nat :=
  if 97 ≤ c ∧ c ≤ 122 then c - 32
  else if 224 ≤ c ∧ c ≤ 254 ∧ c ≠ 247 then c - 32
  else c

/-- Model of the external `unidecode` transliteration on the character domain
relevant to Portuguese rosters: ASCII code points pass through, Latin-1
accented letters map to their base ASCII letter, anything else is dropped
(characters with multi-char lowercase transliterations are outside the model). -/
def unidecN (c : Nat) : List Nat :=
  if c < 128 then [c]
  else if 192 ≤ c ∧ c ≤ 197 then [65]
  else if c = 198 then [65, 69]
  else if c = 199 then [67]
  else if 200 ≤ c ∧ c ≤ 203 then [69]
  else if 204 ≤ c ∧ c ≤ 207 then [73]
  else if c = 208 then [68]
  else if c = 209 then [78]
  else if 210 ≤ c ∧ c ≤ 214 then [79]
  else if c = 216 then [79]
  else if 217 ≤ c ∧ c ≤ 220 then [85]
  else if c = 221 then [89]
  else []

/-- `unidecode(str(texto).upper())`, character by character. -/
def expandir : List Nat → List Nat
  | [] => []
  | c :: cs => unidecN (pyUpperN c) ++ expandir cs

/-- `texto_limpo.replace('\n', ' ')`. -/
def trocarQuebra (l : List Nat) : List Nat := l.map (fun c => if c = 10 then 32 else c)

/-- `re.sub(r'\s+', ' ', texto)`: every maximal whitespace run becomes one space. -/
def colapsar : List Nat → List Nat
  | [] => []
  | [a] => [if isSpaceN a then 32 else a]
  | a :: b :: cs =>
    if isSpaceN a then
      if isSpaceN b then colapsar (b :: cs) else 32 :: colapsar (b :: cs)
    else a :: colapsar (b :: cs)

/-- Removes the trailing whitespace run. -/
def tirarFim : List Nat → List Nat
  | [] => []
  | a :: t =>
    match tirarFim t with
    | [] => if isSpaceN a then [] else [a]
    | b :: r => a :: b :: r

/-- Python `str.strip()`: drop leading and trailing whitespace. -/
def aparar (l : List Nat) : List Nat := tirarFim (l.dropWhile (fun c => isSpaceN c))

/-- `normalizar_texto`: `None`/NaN or the empty string give the empty string;
otherwise uppercase, transliterate, replace line breaks by spaces, collapse
whitespace runs and strip the ends. -/
def normalizar_texto : Option (List Nat) → List Nat
  | none => []
  | some t => if t = [] then [] else aparar (colapsar (trocarQuebra (expandir t)))

/-- `limpar_numeros`: NaN gives the empty string, otherwise keep only digits. -/
def limpar_numeros : Option (List Nat) → List Nat
  | none => []
  | some v => v.filter (fun c => isDigitoN c)

/-- `obter_fragmentos_cpf`: digits of the value; fewer than 11 digits give no
fragments, otherwise the four slices `[0:3]`, `[3:6]`, `[6:9]`, `[9:11]`. -/
def obter_fragmentos_cpf (cpf : Option (List Nat)) : List (List Nat) :=
  let cpf_limpo := limpar_numeros cpf
  if cpf_limpo.length < 11 then []
  else [cpf_limpo.take 3, (cpf_limpo.drop 3).take 3, (cpf_limpo.drop 6).take 3,
        (cpf_limpo.drop 9).take 2]

/-- Concatenation of a list of code-point lists. -/
def concatenar : List (List Nat) → List Nat
  | [] => []
  | t :: ts => t ++ concatenar ts

/-! Auxiliary predicates and lemmas for idempotence of `normalizar_texto`. -/

/-- No two adjacent whitespace code points. -/
def semEspacosDuplos : List Nat → Bool
  | [] => true
  | [_] => true
  | a :: b :: cs => (!(isSpaceN a && isSpaceN b)) && semEspacosDuplos (b :: cs)

lemma sem_tail {a : Nat} {t : List Nat} (h : semEspacosDuplos (a :: t) = true) :
    semEspacosDuplos t = true := by
  cases t with
  | nil => rfl
  | cons b cs =>
    rw [semEspacosDuplos, Bool.and_eq_true] at h
    exact h.2

lemma sem_cons {a : Nat} {t : List Nat} (ha : isSpaceN a = false)
    (ht : semEspacosDuplos t = true) : semEspacosDuplos (a :: t) = true := by
  cases t with
  | nil => rfl
  | cons b cs => simp [semEspacosDuplos, ha, ht]

lemma colapsar_head {b : Nat} (cs : List Nat) (hb : isSpaceN b = false) :
    ∃ r, colapsar (b :: cs) = b :: r := by
  cases cs with
  | nil => exact ⟨[], by simp [colapsar, hb]⟩
  | cons c cs2 => exact ⟨colapsar (c :: cs2), by simp [colapsar, hb]⟩

lemma sem_colapsar (l : List Nat) : semEspacosDuplos (colapsar l) = true := by
  induction l with
  | nil => rfl
  | cons a t ih =>
    cases t with
    | nil => cases ha : isSpaceN a <;> simp [colapsar, semEspacosDuplos, ha]
    | cons b cs =>
      rw [colapsar]
      by_cases ha : isSpaceN a = true
      · by_cases hb : isSpaceN b = true
        · simpa [ha, hb] using ih
        · have hbf : isSpaceN b = false := by simpa using hb
          simp only [ha, if_true, hbf, Bool.false_eq_true, if_false]
          obtain ⟨r, hr⟩ := colapsar_head cs hbf
          rw [hr]
          have ih2 : semEspacosDuplos (b :: r) = true := by rw [← hr]; exact ih
          simp [semEspacosDuplos, hbf, ih2]
      · have haf : isSpaceN a = false := by simpa using ha
        simp only [haf, Bool.false_eq_true, if_false]
        exact sem_cons haf ih

lemma mem_colapsar {l : List Nat} {d : Nat} (hd : d ∈ colapsar l) :
    d = 32 ∨ (d ∈ l ∧ isSpaceN d = false) := by
  induction l with
  | nil => simp [colapsar] at hd
  | cons a t ih =>
    cases t with
    | nil =>
      by_cases ha : isSpaceN a = true
      · simp [colapsar, ha] at hd
        exact Or.inl hd
      · have haf : isSpaceN a = false := by simpa using ha
        simp [colapsar, haf] at hd
        exact Or.inr ⟨by simp [hd], by rw [hd]; exact haf⟩
    | cons b cs =>
      rw [colapsar] at hd
      by_cases ha : isSpaceN a = true
      · by_cases hb : isSpaceN b = true
        · simp only [ha, if_true, hb] at hd
          rcases ih hd with h | ⟨hm, hs⟩
          · exact Or.inl h
          · exact Or.inr ⟨List.mem_cons_of_mem a hm, hs⟩
        · have hbf : isSpaceN b = false := by simpa using hb
          simp only [ha, if_true, hbf, Bool.false_eq_true, if_false, List.mem_cons] at hd
          rcases hd with h32 | hd
          · exact Or.inl h32
          · rcases ih hd with h | ⟨hm, hs⟩
            · exact Or.inl h
            · exact Or.inr ⟨List.mem_cons_of_mem a hm, hs⟩
      · have haf : isSpaceN a = false := by simpa using ha
        simp only [haf, Bool.false_eq_true, if_false, List.mem_cons] at hd
        rcases hd with rfl | hd
        · exact Or.inr ⟨List.mem_cons_self _ _, haf⟩
        · rcases ih hd with h | ⟨hm, hs⟩
          · exact Or.inl h
          · exact Or.inr ⟨List.mem_cons_of_mem _ hm, hs⟩

lemma colapsar_fix {l : List Nat} (hsem : semEspacosDuplos l = true)
    (h32 : ∀ d ∈ l, isSpaceN d = true → d = 32) : colapsar l = l := by
  induction l with
  | nil => rfl
  | cons a t ih =>
    cases t with
    | nil =>
      by_cases ha : isSpaceN a = true
      · have := h32 a (List.mem_cons_self a _) ha
        simp [colapsar, ha, this]
      · have haf : isSpaceN a = false := by simpa using ha
        simp [colapsar, haf]
    | cons b cs =>
      have hnot : (isSpaceN a && isSpaceN b) = false := by
        rw [semEspacosDuplos, Bool.and_eq_true] at hsem
        have h1 := hsem.1
        cases hv : (isSpaceN a && isSpaceN b)
        · rfl
        · rw [hv] at h1; exact absurd h1 (by simp)
      have ht : colapsar (b :: cs) = b :: cs :=
        ih (sem_tail hsem) (fun d hd h => h32 d (List.mem_cons_of_mem a hd) h)
      rw [colapsar]
      by_cases ha : isSpaceN a = true
      · have hbf : isSpaceN b = false := by
          cases hbv : isSpaceN b
          · rfl
          · rw [ha, hbv] at hnot; simp at hnot
        have ha32 := h32 a (List.mem_cons_self a _) ha
        rw [if_pos ha, if_neg (by simp [hbf]), ht, ha32]
      · have haf : isSpaceN a = false := by simpa using ha
        simp only [haf, Bool.false_eq_true, if_false, ht]

lemma tf_mem {l : List Nat} {d : Nat} (hd : d ∈ tirarFim l) : d ∈ l := by
  induction l with
  | nil => simpa [tirarFim] using hd
  | cons a t ih =>
    rw [tirarFim] at hd
    cases htf : tirarFim t with
    | nil =>
      rw [htf] at hd
      by_cases ha : isSpaceN a = true
      · simp [ha] at hd
      · have haf : isSpaceN a = false := by simpa using ha
        simp [haf] at hd
        simp [hd]
    | cons b r =>
      rw [htf] at hd
      rcases List.mem_cons.1 hd with rfl | hd2
      · exact List.mem_cons_self _ _
      · exact List.mem_cons_of_mem _ (ih (htf ▸ hd2))

lemma tf_head {l : List Nat} {b : Nat} {r : List Nat} (h : tirarFim l = b :: r) :
    ∃ t2, l = b :: t2 := by
  cases l with
  | nil => simp [tirarFim] at h
  | cons a t =>
    rw [tirarFim] at h
    cases htf : tirarFim t with
    | nil =>
      rw [htf] at h
      by_cases ha : isSpaceN a = true
      · simp [ha] at h
      · have haf : isSpaceN a = false := by simpa using ha
        simp [haf] at h
        exact ⟨t, by rw [h.1]⟩
    | cons c r2 =>
      rw [htf] at h
      have h2 : a :: c :: r2 = b :: r := h
      refine ⟨t, ?_⟩
      injection h2 with h3 h4
      rw [h3]

lemma tf_sem {l : List Nat} (h : semEspacosDuplos l = true) :
    semEspacosDuplos (tirarFim l) = true := by
  induction l with
  | nil => rfl
  | cons a t ih =>
    rw [tirarFim]
    cases htf : tirarFim t with
    | nil =>
      by_cases ha : isSpaceN a = true
      · simp [ha, semEspacosDuplos]
      · have haf : isSpaceN a = false := by simpa using ha
        simp [haf, semEspacosDuplos]
    | cons b r =>
      obtain ⟨t2, ht2⟩ := tf_head htf
      have hsem2 : semEspacosDuplos (b :: r) = true := htf ▸ ih (sem_tail h)
      have hab : (!(isSpaceN a && isSpaceN b)) = true := by
        rw [ht2, semEspacosDuplos, Bool.and_eq_true] at h
        exact h.1
      rw [semEspacosDuplos, Bool.and_eq_true]
      exact ⟨hab, hsem2⟩

lemma tf_idem (l : List Nat) : tirarFim (tirarFim l) = tirarFim l := by
  induction l with
  | nil => rfl
  | cons a t ih =>
    rw [tirarFim]
    cases htf : tirarFim t with
    | nil =>
      by_cases ha : isSpaceN a = true
      · simp [ha, tirarFim]
      · have haf : isSpaceN a = false := by simpa using ha
        simp [haf, tirarFim]
    | cons b r =>
      have hbr : tirarFim (b :: r) = b :: r := by rw [← htf]; exact htf ▸ ih
      rw [tirarFim, hbr]

lemma dw_mem {p : Nat → Bool} {l : List Nat} {d : Nat} (h : d ∈ l.dropWhile p) : d ∈ l := by
  induction l with
  | nil => simpa using h
  | cons a t ih =>
    rw [List.dropWhile_cons] at h
    by_cases hp : p a = true
    · simp only [hp, if_true] at h
      exact List.mem_cons_of_mem _ (ih h)
    · simp only [hp, if_false] at h
      simpa using h

lemma dw_head {p : Nat → Bool} {l : List Nat} {b : Nat} {r : List Nat}
    (h : l.dropWhile p = b :: r) : p b = false := by
  induction l with
  | nil => simp at h
  | cons a t ih =>
    rw [List.dropWhile_cons] at h
    by_cases hp : p a = true
    · simp only [hp, if_true] at h
      exact ih h
    · simp only [hp, if_false] at h
      injection h with h1 h2
      rw [← h1]
      simpa using hp

lemma dw_self {p : Nat → Bool} {l : List Nat}
    (h : ∀ b r, l = b :: r → p b = false) : l.dropWhile p = l := by
  cases l with
  | nil => rfl
  | cons a t => simp [List.dropWhile_cons, h a t rfl]

lemma dw_sem {l : List Nat} (h : semEspacosDuplos l = true) :
    semEspacosDuplos (l.dropWhile (fun c => isSpaceN c)) = true := by
  induction l with
  | nil => rfl
  | cons a t ih =>
    rw [List.dropWhile_cons]
    by_cases hp : isSpaceN a = true
    · simp only [hp, if_true]
      exact ih (sem_tail h)
    · simp only [hp, if_false]
      exact h

lemma pyUpper_cases (c : Nat) :
    (97 ≤ c ∧ c ≤ 122 ∧ pyUpperN c = c - 32) ∨
    (224 ≤ c ∧ c ≤ 254 ∧ c ≠ 247 ∧ pyUpperN c = c - 32) ∨
    (¬(97 ≤ c ∧ c ≤ 122) ∧ ¬(224 ≤ c ∧ c ≤ 254 ∧ c ≠ 247) ∧ pyUpperN c = c) := by
  unfold pyUpperN
  split_ifs with h1 h2
  · exact Or.inl ⟨h1.1, h1.2, rfl⟩
  · exact Or.inr (Or.inl ⟨h2.1, h2.2.1, h2.2.2, rfl⟩)
  · exact Or.inr (Or.inr ⟨h1, h2, rfl⟩)

lemma pyUpper_not_lower (c : Nat) : ¬(97 ≤ pyUpperN c ∧ pyUpperN c ≤ 122) := by
  rcases pyUpper_cases c with ⟨a, b, e⟩ | ⟨a, b, c2, e⟩ | ⟨a, b, e⟩ <;> rw [e] <;> omega

lemma pyUpper_id_of {u : Nat} (h1 : u < 128) (h2 : ¬(97 ≤ u ∧ u ≤ 122)) :
    pyUpperN u = u := by
  rcases pyUpper_cases u with ⟨a, b, e⟩ | ⟨a, b, c2, e⟩ | ⟨a, b, e⟩ <;> first | omega | exact e

lemma unidec_ascii {u : Nat} (h : u < 128) : unidecN u = [u] := by
  unfold unidecN
  rw [if_pos h]

lemma unidec_pyUpper_id {u : Nat} (h1 : u < 128) (h2 : ¬(97 ≤ u ∧ u ≤ 122)) :
    unidecN (pyUpperN u) = [u] := by
  rw [pyUpper_id_of h1 h2, unidec_ascii h1]

lemma unidec_mem {c d : Nat} (hd : d ∈ unidecN c) :
    (d = c ∧ c < 128) ∨ (65 ≤ d ∧ d ≤ 90) := by
  by_cases h0 : c < 128
  · rw [unidec_ascii h0, List.mem_singleton] at hd
    exact Or.inl ⟨hd, h0⟩
  · right
    unfold unidecN at hd
    rw [if_neg h0] at hd
    by_cases h1 : 192 ≤ c ∧ c ≤ 197
    · rw [if_pos h1, List.mem_singleton] at hd; omega
    rw [if_neg h1] at hd
    by_cases h2 : c = 198
    · rw [if_pos h2, List.mem_cons, List.mem_singleton] at hd; omega
    rw [if_neg h2] at hd
    by_cases h3 : c = 199
    · rw [if_pos h3, List.mem_singleton] at hd; omega
    rw [if_neg h3] at hd
    by_cases h4 : 200 ≤ c ∧ c ≤ 203
    · rw [if_pos h4, List.mem_singleton] at hd; omega
    rw [if_neg h4] at hd
    by_cases h5 : 204 ≤ c ∧ c ≤ 207
    · rw [if_pos h5, List.mem_singleton] at hd; omega
    rw [if_neg h5] at hd
    by_cases h6 : c = 208
    · rw [if_pos h6, List.mem_singleton] at hd; omega
    rw [if_neg h6] at hd
    by_cases h7 : c = 209
    · rw [if_pos h7, List.mem_singleton] at hd; omega
    rw [if_neg h7] at hd
    by_cases h8 : 210 ≤ c ∧ c ≤ 214
    · rw [if_pos h8, List.mem_singleton] at hd; omega
    rw [if_neg h8] at hd
    by_cases h9 : c = 216
    · rw [if_pos h9, List.mem_singleton] at hd; omega
    rw [if_neg h9] at hd
    by_cases h10 : 217 ≤ c ∧ c ≤ 220
    · rw [if_pos h10, List.mem_singleton] at hd; omega
    rw [if_neg h10] at hd
    by_cases h11 : c = 221
    · rw [if_pos h11, List.mem_singleton] at hd; omega
    rw [if_neg h11] at hd
    exact absurd hd (List.not_mem_nil d)

lemma unidec_pyUpper_fix {c d : Nat} (hd : d ∈ unidecN (pyUpperN c)) :
    unidecN (pyUpperN d) = [d] := by
  rcases unidec_mem hd with ⟨rfl, hlt⟩ | hr
  · exact unidec_pyUpper_id hlt (pyUpper_not_lower c)
  · exact unidec_pyUpper_id (by omega) (by omega)

lemma mem_expandir {t : List Nat} {d : Nat} (hd : d ∈ expandir t) :
    ∃ c, c ∈ t ∧ d ∈ unidecN (pyUpperN c) := by
  induction t with
  | nil => simp [expandir] at hd
  | cons a s ih =>
    rw [expandir, List.mem_append] at hd
    rcases hd with h | h
    · exact ⟨a, List.mem_cons_self _ _, h⟩
    · obtain ⟨c, hc, hdc⟩ := ih h
      exact ⟨c, List.mem_cons_of_mem _ hc, hdc⟩

lemma expandir_fix {y : List Nat} (h : ∀ d ∈ y, unidecN (pyUpperN d) = [d]) :
    expandir y = y := by
  induction y with
  | nil => rfl
  | cons a t ih =>
    rw [expandir, h a (List.mem_cons_self _ _),
        ih (fun d hd => h d (List.mem_cons_of_mem _ hd))]
    rfl

lemma trocarQuebra_fix {y : List Nat} (h : (10 : Nat) ∉ y) : trocarQuebra y = y := by
  induction y with
  | nil => rfl
  | cons a t ih =>
    have ha : a ≠ 10 := fun hh => h (hh ▸ List.mem_cons_self _ _)
    rw [trocarQuebra, List.map_cons]
    rw [trocarQuebra] at ih
    rw [ih (fun hm => h (List.mem_cons_of_mem _ hm)), if_neg ha]

lemma mem_aparar {l : List Nat} {d : Nat} (hd : d ∈ aparar l) : d ∈ l :=
  dw_mem (tf_mem hd)

lemma sem_aparar {l : List Nat} (h : semEspacosDuplos l = true) :
    semEspacosDuplos (aparar l) = true := tf_sem (dw_sem h)

/-- Membership characterization of the output of `normalizar_texto`:
every character is a plain space or a non-space fixpoint of the
uppercase-transliteration pass. -/
lemma mem_normalizar {x : Option (List Nat)} {d : Nat} (hd : d ∈ normalizar_texto x) :
    d = 32 ∨ (isSpaceN d = false ∧ unidecN (pyUpperN d) = [d]) := by
  cases x with
  | none => simp [normalizar_texto] at hd
  | some t =>
    rw [normalizar_texto] at hd
    by_cases ht : t = []
    · simp [ht] at hd
    · rw [if_neg ht] at hd
      have hcol := mem_aparar hd
      rcases mem_colapsar hcol with h32 | ⟨hmem, hsp⟩
      · exact Or.inl h32
      · right
        refine ⟨hsp, ?_⟩
        rw [trocarQuebra, List.mem_map] at hmem
        obtain ⟨c, hc, hcd⟩ := hmem
        by_cases hc10 : c = 10
        · rw [hc10] at hcd
          simp at hcd
          rw [← hcd] at hsp
          simp [isSpaceN] at hsp
        · rw [if_neg hc10] at hcd
          rw [← hcd]
          rw [← hcd] at hsp
          obtain ⟨e, _, hde⟩ := mem_expandir hc
          exact unidec_pyUpper_fix hde

lemma sem_normalizar (x : Option (List Nat)) :
    semEspacosDuplos (normalizar_texto x) = true := by
  cases x with
  | none => rfl
  | some t =>
    rw [normalizar_texto]
    by_cases ht : t = []
    · rw [if_pos ht]; rfl
    · rw [if_neg ht]
      exact sem_aparar (sem_colapsar _)

lemma head_normalizar {x : Option (List Nat)} {b : Nat} {r : List Nat}
    (h : normalizar_texto x = b :: r) : isSpaceN b = false := by
  cases x with
  | none => simp [normalizar_texto] at h
  | some t =>
    rw [normalizar_texto] at h
    by_cases ht : t = []
    · simp [ht] at h
    · rw [if_neg ht] at h
      rw [aparar] at h
      obtain ⟨t2, ht2⟩ := tf_head h
      exact dw_head ht2

lemma tf_normalizar (x : Option (List Nat)) :
    tirarFim (normalizar_texto x) = normalizar_texto x := by
  cases x with
  | none => rfl
  | some t =>
    rw [normalizar_texto]
    by_cases ht : t = []
    · simp [ht, tirarFim]
    · rw [if_neg ht, aparar]
      exact tf_idem _

/-- C8 core: `normalizar_texto` is idempotent. -/
lemma normalizar_idem (x : Option (List Nat)) :
    normalizar_texto (some (normalizar_texto x)) = normalizar_texto x := by
  by_cases hy : normalizar_texto x = []
  · rw [hy]; rfl
  · rw [normalizar_texto, if_neg hy]
    have hfix : ∀ d ∈ normalizar_texto x, unidecN (pyUpperN d) = [d] := by
      intro d hd
      rcases mem_normalizar hd with h32 | ⟨_, hf⟩
      · rw [h32]; decide
      · exact hf
    have h10 : (10 : Nat) ∉ normalizar_texto x := by
      intro hm
      rcases mem_normalizar hm with h | ⟨hs, _⟩
      · omega
      · simp [isSpaceN] at hs
    have h32s : ∀ d ∈ normalizar_texto x, isSpaceN d = true → d = 32 := by
      intro d hd hsp
      rcases mem_normalizar hd with h | ⟨hs, _⟩
      · exact h
      · rw [hs] at hsp; exact absurd hsp (by simp)
    rw [expandir_fix hfix, trocarQuebra_fix h10,
        colapsar_fix (sem_normalizar x) h32s, aparar,
        dw_self (fun b r hbr => head_normalizar hbr), tf_normalizar]

lemma take_split (m n : Nat) : ∀ l : List Nat, l.take (m + n) = l.take m ++ (l.drop m).take n := by
  induction m with
  | zero => intro l; simp
  | succ k ih =>
    intro l
    cases l with
    | nil => simp
    | cons a t =>
      rw [show k + 1 + n = (k + n) + 1 by omega]
      rw [List.take_succ_cons, List.take_succ_cons, List.drop_succ_cons, ih t]
      rfl

lemma frag_concat (l : List Nat) :
    l.take 3 ++ ((l.drop 3).take 3 ++ ((l.drop 6).take 3 ++ ((l.drop 9).take 2 ++ []))) =
      l.take 11 := by
  rw [List.append_nil]
  have h1 : l.take 11 = l.take 3 ++ (l.drop 3).take 8 := take_split 3 8 l
  have h2 : (l.drop 3).take 8 = (l.drop 3).take 3 ++ ((l.drop 3).drop 3).take 5 :=
    take_split 3 5 _
  have h3 : (l.drop 3).drop 3 = l.drop 6 := by simp [List.drop_drop]
  have h4 : (l.drop 6).take 5 = (l.drop 6).take 3 ++ ((l.drop 6).drop 3).take 2 :=
    take_split 3 2 _
  have h5 : (l.drop 6).drop 3 = l.drop 9 := by simp [List.drop_drop]
  rw [h1, h2, h3, h4, h5]

/-- C7: `obter_fragmentos_cpf` first reduces its argument to its digit
sequence; fewer than 11 digits give the empty fragment list, and otherwise the
result is exactly the four fragments at offsets [0,3), [3,6), [6,9), [9,11) of
the digit sequence, whose concatenation is the first 11 digits. -/
theorem rastreador_C7 (v : Option (List Nat)) :
    ((limpar_numeros v).length < 11 → obter_fragmentos_cpf v = []) ∧
    (11 ≤ (limpar_numeros v).length →
      obter_fragmentos_cpf v =
        [(limpar_numeros v).take 3, ((limpar_numeros v).drop 3).take 3,
         ((limpar_numeros v).drop 6).take 3, ((limpar_numeros v).drop 9).take 2] ∧
      (obter_fragmentos_cpf v).length = 4 ∧
      concatenar (obter_fragmentos_cpf v) = (limpar_numeros v).take 11) := by
  constructor
  · intro h
    unfold obter_fragmentos_cpf
    rw [if_pos h]
  · intro h
    have he : obter_fragmentos_cpf v =
        [(limpar_numeros v).take 3, ((limpar_numeros v).drop 3).take 3,
         ((limpar_numeros v).drop 6).take 3, ((limpar_numeros v).drop 9).take 2] := by
      unfold obter_fragmentos_cpf
      rw [if_neg (by omega)]
    refine ⟨he, by rw [he]; rfl, ?_⟩
    rw [he]
    show (limpar_numeros v).take 3 ++ (((limpar_numeros v).drop 3).take 3 ++
      (((limpar_numeros v).drop 6).take 3 ++ (((limpar_numeros v).drop 9).take 2 ++ []))) =
      (limpar_numeros v).take 11
    exact frag_concat _

/-- C7 witness: the fragments of the concrete document `111.222.333-44`. -/
theorem rastreador_C7_witness :
    11 ≤ (limpar_numeros (some (s2n "111.222.333-44"))).length ∧
    obter_fragmentos_cpf (some (s2n "111.222.333-44")) =
      [s2n "111", s2n "222", s2n "333", s2n "44"] := by
  refine ⟨by decide, ?_⟩
  have h := (rastreador_C7 (some (s2n "111.222.333-44"))).2 (by decide)
  rw [h.1]
  decide

/-- C8: `normalizar_texto` is a pure function, absent (`None`/NaN) and empty
inputs normalize to the empty string, and normalization is idempotent. -/
theorem rastreador_C8 :
    normalizar_texto none = [] ∧ normalizar_texto (some []) = [] ∧
    ∀ x : Option (List Nat),
      normalizar_texto (some (normalizar_texto x)) = normalizar_texto x :=
  ⟨rfl, rfl, normalizar_idem⟩

/-! The matching primitives: substring search, tokenization, sorting and the
rapidfuzz `token_sort_ratio` scorer. -/

/-- Whether the first list is an initial segment of the second. -/
def ehPrefixo : List Nat → List Nat → Bool
  | [], _ => true
  | _ :: _, [] => false
  | a :: as, b :: bs => a == b && ehPrefixo as bs

/-- Python `pat in s`: whether `pat` occurs contiguously inside `s`. -/
def ehTrecho (pat : List Nat) : List Nat → Bool
  | [] => ehPrefixo pat []
  | c :: ts => ehPrefixo pat (c :: ts) || ehTrecho pat ts

/-- Python `s.find(pat)`: index of the first occurrence, or `none` for `-1`. -/
def localizar (pat : List Nat) : List Nat → Option Nat
  | [] => if ehPrefixo pat [] then some 0 else none
  | c :: ts =>
    if ehPrefixo pat (c :: ts) then some 0
    else (localizar pat ts).map (fun i => i + 1)

/-- Python `str.split()`: whitespace-separated tokens, no empties.
The first argument accumulates the current token in reverse. -/
def quebrarAux : List Nat → List Nat → List (List Nat)
  | tok, [] => if tok = [] then [] else [tok.reverse]
  | tok, c :: cs =>
    if isSpaceN c then
      if tok = [] then quebrarAux [] cs else tok.reverse :: quebrarAux [] cs
    else quebrarAux (c :: tok) cs

def quebrar (l : List Nat) : List (List Nat) := quebrarAux [] l

/-- Code-point lexicographic order on token lists (Python `<=` on `str`). -/
def lexLeN : List Nat → List Nat → Bool
  | [], _ => true
  | _ :: _, [] => false
  | a :: as, b :: bs => if a < b then true else if b < a then false else lexLeN as bs

/-- Insertion sort, used for Python `sorted` on tokens and for the final
status ordering of report rows. -/
def inserir {α : Type} (le : α → α → Bool) (x : α) : List α → List α
  | [] => [x]
  | y :: ys => if le x y then x :: y :: ys else y :: inserir le x ys

def ordenar {α : Type} (le : α → α → Bool) : List α → List α
  | [] => []
  | x :: xs => inserir le x (ordenar le xs)

/-- `" ".join(tokens)`. -/
def juntar : List (List Nat) → List Nat
  | [] => []
  | [t] => t
  | t :: ts => t ++ 32 :: juntar ts

/-- Longest common subsequence, inner loop: `lcsA a f ys` computes the LCS
length of `a :: as` and `ys`, where `f` computes the LCS of `as` against any
list.  Split in two structural recursions so that it evaluates in the kernel. -/
def lcsA (a : Nat) (f : List Nat → Nat) : List Nat → Nat
  | [] => 0
  | b :: bs => if a = b then f bs + 1 else max (lcsA a f bs) (f (b :: bs))

/-- Length of the longest common subsequence of two code-point lists. -/
def lcs : List Nat → List Nat → Nat
  | [], _ => 0
  | a :: as, ys => lcsA a (lcs as) ys

/-- rapidfuzz `fuzz.ratio`: the normalized InDel similarity as a percentage,
`100·(1 − dist/(m+n)) = 200·lcs/(m+n)`; two empty strings score 100. -/
def fuzzRatio (a b : List Nat) : ℚ :=
  if a.length + b.length = 0 then 100
  else mkRat (200 * lcs a b) (a.length + b.length)

/-- rapidfuzz token-sort preprocessing: split on whitespace, sort the tokens,
join with single spaces. -/
def token_sort (s : List Nat) : List Nat := juntar (ordenar lexLeN (quebrar s))

/-- rapidfuzz `fuzz.token_sort_ratio`. -/
def token_sort_ratio (a b : List Nat) : ℚ := fuzzRatio (token_sort a) (token_sort b)

/-- rapidfuzz `process.extractOne(q, choices, scorer=fuzz.token_sort_ratio,
score_cutoff=85)`: the first choice attaining the maximum score, provided that
maximum is at least 85; `none` when every choice scores below 85.  Returns
(choice, score, index). -/
def melhor (q : List Nat) : List (List Nat) → Option (List Nat × ℚ × Nat)
  | [] => none
  | c :: cs =>
    match melhor q cs with
    | none =>
      if 85 ≤ token_sort_ratio q c then some (c, token_sort_ratio q c, 0) else none
    | some (c2, s2, i2) =>
      if 85 ≤ token_sort_ratio q c ∧ s2 ≤ token_sort_ratio q c then
        some (c, token_sort_ratio q c, 0)
      else some (c2, s2, i2 + 1)

/-! Data model and the two reconciliation routes. -/

/-- One candidate row, restricted to the two fields the engine reads: the
value in the identified name column and the value in the identified document
column (`none` models a NaN cell). -/
structure LinhaAluno where
  nome : Option (List Nat)
  cpf : Option (List Nat)
deriving DecidableEq

/-- One reference row (structured route). -/
structure LinhaOficial where
  nome : Option (List Nat)
  cpf : Option (List Nat)
deriving DecidableEq

/-- One report row; the percent formatting of the score and the interpolated
fragment in the observation text are presentation and are not modelled. -/
structure Resultado where
  aluno : List Nat
  nomeDetectado : List Nat
  score : ℚ
  status : String
  obs : String
deriving DecidableEq

/-- The three shapes a returned report can have: an error frame
(single `Erro` cell), an informational frame (single `Resultado` cell), or
the frame of per-candidate rows sorted by status. -/
inductive Report where
  | erro : String → Report
  | resultado : String → Report
  | linhas : List Resultado → Report
deriving DecidableEq

/-- Python `str(x)` applied to a cell: a NaN cell prints as `"nan"`. -/
def pyStr : Option (List Nat) → List Nat
  | none => s2n "nan"
  | some s => s

/-- Sort key of the final `sort_values(by="Status")`. -/
def statusLe (r1 r2 : Resultado) : Bool := lexLeN (s2n r1.status) (s2n r2.status)

/-- The context window of `buscar_em_texto_corrido`: 50 characters before the
match start and 50 after the match end, clamped to the text bounds
(`texto[max(0, i-50) : min(total, i+len+50)]`). -/
def janelaContexto (texto : List Nat) (i len : Nat) : List Nat :=
  let inicio := i - 50
  let fim := min texto.length (i + len + 50)
  (texto.drop inicio).take (fim - inicio)

/-- Corpus route, one candidate (`buscar_em_texto_corrido` loop body):
`none` when no report row is appended for this candidate. -/
def buscarAluno (texto : List Nat) (temCpf usar : Bool) (row : LinhaAluno) :
    Option Resultado :=
  let nome_busca := normalizar_texto row.nome
  if nome_busca.length < 4 then none
  else
    match localizar nome_busca texto with
    | none => none
    | some i =>
      if usar && temCpf then
        let fragmentos := obter_fragmentos_cpf row.cpf
        if fragmentos = [] then
          some { aluno := pyStr row.nome, nomeDetectado := nome_busca, score := 100,
                 status := "✅ Aprovado (Nome encontrado)",
                 obs := "CPF do aluno inválido/incompleto, validado apenas por nome." }
        else
          let contexto_numerico := (janelaContexto texto i nome_busca.length).filter
            (fun c => isDigitoN c)
          if fragmentos.any (fun frag => ehTrecho frag contexto_numerico) then
            some { aluno := pyStr row.nome, nomeDetectado := nome_busca, score := 100,
                   status := "✅ Aprovado (Confirmado)",
                   obs := "Nome encontrado e parte do CPF identificada próxima." }
          else
            some { aluno := pyStr row.nome, nomeDetectado := nome_busca, score := 100,
                   status := "⚠️ Verificar (CPF Divergente)",
                   obs := "Nome encontrado, mas nenhum trecho do CPF foi achado por perto." }
      else
        some { aluno := pyStr row.nome, nomeDetectado := nome_busca, score := 100,
               status := "✅ Aprovado (Nome encontrado)",
               obs := "Validação feita apenas por nome." }

/-- `buscar_em_texto_corrido`: corpus route over all candidates. -/
def buscar_em_texto_corrido (df_alunos : List LinhaAluno) (texto : List Nat)
    (temCpf usar : Bool) : Report :=
  let resultados := df_alunos.filterMap (buscarAluno texto temCpf usar)
  if resultados = [] then Report.resultado "Nenhum aluno encontrado no arquivo enviado."
  else Report.linhas (ordenar statusLe resultados)

/-- `df_oficial[col_nome_lista].dropna()`: the reference name column with NaN
rows removed. -/
def listaOrigDe (dfo : List LinhaOficial) : List (List Nat) :=
  dfo.filterMap (fun r => r.nome)

/-- `lista_nomes_oficial_norm`: the dropna'd reference names, normalized. -/
def listaNormDe (dfo : List LinhaOficial) : List (List Nat) :=
  (listaOrigDe dfo).map (fun x => normalizar_texto (some x))

/-- `limpar_numeros(df_oficial.iloc[index_match][col_cpf_lista])`: the
reference document fetched positionally from the full reference table. -/
def docListaEm (dfo : List LinhaOficial) (i : Nat) : List Nat :=
  limpar_numeros (dfo[i]?.bind (fun r => r.cpf))

/-- The normalized search name of a candidate in the structured route
(`normalizar_texto(str(row[col_nome_aluno]))`). -/
def nomeBusca (row : LinhaAluno) : List Nat := normalizar_texto (some (pyStr row.nome))

/-- Structured route, one candidate (`processar_conferencia` loop body):
`none` when no report row is appended for this candidate. -/
def processarAluno (dfo : List LinhaOficial) (temCpfAluno temCpfLista usar_cpf : Bool)
    (row : LinhaAluno) : Option Resultado :=
  let nome_real := pyStr row.nome
  if (nomeBusca row).length < 4 then none
  else
    match melhor (nomeBusca row) (listaNormDe dfo) with
    | none => none
    | some (_, score, idx) =>
      let nomeEncontradoReal := ((listaOrigDe dfo)[idx]?).getD []
      if usar_cpf && temCpfAluno && temCpfLista then
        let doc_aluno := limpar_numeros row.cpf
        let doc_lista := docListaEm dfo idx
        let fragmentos := obter_fragmentos_cpf (some doc_aluno)
        if fragmentos.any (fun frag => ehTrecho frag doc_lista) then
          some { aluno := nome_real, nomeDetectado := nomeEncontradoReal, score := score,
                 status := "✅ Aprovado", obs := "Nome e Documento conferem." }
        else if 98 ≤ score then
          some { aluno := nome_real, nomeDetectado := nomeEncontradoReal, score := score,
                 status := "⚠️ Verificar Homônimo", obs := "Nome bate, mas documento diverge." }
        else none
      else
        if 95 ≤ score then
          some { aluno := nome_real, nomeDetectado := nomeEncontradoReal, score := score,
                 status := "✅ Aprovado", obs := "" }
        else if 88 ≤ score then
          some { aluno := nome_real, nomeDetectado := nomeEncontradoReal, score := score,
                 status := "🔍 Verificar grafia", obs := "" }
        else none

/-- Structured route (`processar_conferencia`, rota B) over all candidates. -/
def rotaEstruturada (df_alunos : List LinhaAluno) (dfo : List LinhaOficial)
    (temCpfAluno temCpfLista usar_cpf : Bool) : Report :=
  let resultados := df_alunos.filterMap (processarAluno dfo temCpfAluno temCpfLista usar_cpf)
  if resultados = [] then Report.resultado "Nenhum match encontrado."
  else Report.linhas (ordenar statusLe resultados)

/-- The reference source after loading: a PDF already extracted and normalized
into a text blob (empty when unreadable), or a loaded table together with the
result of document-column identification on it. -/
inductive FonteReferencia where
  | pdf : List Nat → FonteReferencia
  | tabela : List LinhaOficial → Bool → FonteReferencia
deriving DecidableEq

/-- `processar_conferencia` after the external loading/column-identification
collaborators: `temNomeAluno`/`temCpfAluno` say whether a name/document column
was identified on the candidate table, and for a tabular reference the boolean
carried by the source says whether its document column was identified. -/
def processar_conferencia (df_alunos : List LinhaAluno) (temNomeAluno temCpfAluno : Bool)
    (fonte : FonteReferencia) (usar_cpf : Bool) : Report :=
  if !temNomeAluno then
    Report.erro "Não identifiquei a coluna de nomes no arquivo de alunos."
  else
    match fonte with
    | .pdf texto =>
      if texto = [] then Report.erro "PDF ilegível (pode ser imagem)."
      else buscar_em_texto_corrido df_alunos texto temCpfAluno usar_cpf
    | .tabela dfo temCpfLista =>
      rotaEstruturada df_alunos dfo temCpfAluno temCpfLista usar_cpf

/-! Characterization of `melhor` (rapidfuzz `extractOne` with cutoff 85). -/

lemma melhor_none_iff (q : List Nat) (l : List (List Nat)) :
    melhor q l = none ↔ ∀ c ∈ l, token_sort_ratio q c < 85 := by
  induction l with
  | nil => simp [melhor]
  | cons c cs ih =>
    rw [melhor]
    cases hm : melhor q cs with
    | none =>
      by_cases hc : 85 ≤ token_sort_ratio q c
      · rw [if_pos hc]
        constructor
        · intro h; exact absurd h (by simp)
        · intro h; exact absurd (h c (List.mem_cons_self _ _)) (not_lt.2 hc)
      · rw [if_neg hc]
        constructor
        · intro _ d hd
          rcases List.mem_cons.1 hd with rfl | hmem
          · exact not_le.1 hc
          · exact (ih.1 hm) d hmem
        · intro _; rfl
    | some p =>
      obtain ⟨c2, s2, i2⟩ := p
      constructor
      · intro h
        have h2 : (if 85 ≤ token_sort_ratio q c ∧ s2 ≤ token_sort_ratio q c then
            some (c, token_sort_ratio q c, 0) else some (c2, s2, i2 + 1)) = none := h
        by_cases hcond : 85 ≤ token_sort_ratio q c ∧ s2 ≤ token_sort_ratio q c
        · rw [if_pos hcond] at h2; exact absurd h2 (by simp)
        · rw [if_neg hcond] at h2; exact absurd h2 (by simp)
      · intro h
        have hn : melhor q cs = none :=
          ih.2 (fun d hd => h d (List.mem_cons_of_mem _ hd))
        rw [hm] at hn; simp at hn

lemma melhor_spec (q : List Nat) : ∀ (l : List (List Nat)) (c : List Nat) (s : ℚ) (i : Nat),
    melhor q l = some (c, s, i) →
    l[i]? = some c ∧ s = token_sort_ratio q c ∧ 85 ≤ s ∧
    (∀ c2 ∈ l, token_sort_ratio q c2 ≤ s) ∧
    (∀ j c2, j < i → l[j]? = some c2 → token_sort_ratio q c2 < s) := by
  intro l
  induction l with
  | nil => intro c s i h; simp [melhor] at h
  | cons a t ih =>
    intro c s i h
    rw [melhor] at h
    revert h
    cases hm : melhor q t with
    | none =>
      intro h
      replace h : (if 85 ≤ token_sort_ratio q a then
          some (a, token_sort_ratio q a, 0) else none) = some (c, s, i) := h
      by_cases hc : 85 ≤ token_sort_ratio q a
      · rw [if_pos hc] at h
        simp only [Option.some.injEq, Prod.mk.injEq] at h
        obtain ⟨rfl, rfl, rfl⟩ := h
        refine ⟨by simp, rfl, hc, ?_, ?_⟩
        · intro d hd
          rcases List.mem_cons.1 hd with rfl | hmem
          · exact le_refl _
          · exact le_of_lt (lt_of_lt_of_le ((melhor_none_iff q t).1 hm d hmem) hc)
        · intro j d hj _; omega
      · rw [if_neg hc] at h; exact absurd h (by simp)
    | some p =>
      obtain ⟨c2, s2, i2⟩ := p
      intro h
      replace h : (if 85 ≤ token_sort_ratio q a ∧ s2 ≤ token_sort_ratio q a then
          some (a, token_sort_ratio q a, 0) else some (c2, s2, i2 + 1)) = some (c, s, i) := h
      have ihs := ih c2 s2 i2 hm
      by_cases hcond : 85 ≤ token_sort_ratio q a ∧ s2 ≤ token_sort_ratio q a
      · rw [if_pos hcond] at h
        simp only [Option.some.injEq, Prod.mk.injEq] at h
        obtain ⟨rfl, rfl, rfl⟩ := h
        refine ⟨by simp, rfl, hcond.1, ?_, ?_⟩
        · intro d hd
          rcases List.mem_cons.1 hd with rfl | hmem
          · exact le_refl _
          · exact le_trans (ihs.2.2.2.1 d hmem) hcond.2
        · intro j d hj _; omega
      · rw [if_neg hcond] at h
        simp only [Option.some.injEq, Prod.mk.injEq] at h
        obtain ⟨rfl, rfl, rfl⟩ := h
        obtain ⟨hidx, hseq, hs85, hmax, hstrict⟩ := ihs
        have hlt : token_sort_ratio q a < s2 := by
          rcases not_and_or.1 hcond with h1 | h2
          · exact lt_of_lt_of_le (not_le.1 h1) hs85
          · exact not_le.1 h2
        refine ⟨by simpa using hidx, hseq, hs85, ?_, ?_⟩
        · intro d hd
          rcases List.mem_cons.1 hd with rfl | hmem
          · exact le_of_lt hlt
          · exact hmax d hmem
        · intro j d hj hjd
          cases j with
          | zero =>
            rw [List.getElem?_cons_zero, Option.some.injEq] at hjd
            rw [← hjd]
            exact hlt
          | succ k =>
            rw [List.getElem?_cons_succ] at hjd
            exact hstrict k d (by omega) hjd

/-- C3: in the structured route, for a candidate whose normalized name has at
least 4 characters, the matcher either finds no reference name scoring at
least 85 (then no row is emitted for any flag combination), or selects the
first reference entry attaining the maximum `token_sort_ratio` score, that
maximum being at least 85 (a score of exactly 85 is accepted by `melhor`). -/
theorem rastreador_C3 (dfo : List LinhaOficial) (row : LinhaAluno)
    (hlen : 4 ≤ (nomeBusca row).length) :
    (melhor (nomeBusca row) (listaNormDe dfo) = none →
      (∀ c ∈ listaNormDe dfo, token_sort_ratio (nomeBusca row) c < 85) ∧
      ∀ tca tcl u, processarAluno dfo tca tcl u row = none) ∧
    (∀ c s i, melhor (nomeBusca row) (listaNormDe dfo) = some (c, s, i) →
      (listaNormDe dfo)[i]? = some c ∧ s = token_sort_ratio (nomeBusca row) c ∧
      85 ≤ s ∧ (∀ c2 ∈ listaNormDe dfo, token_sort_ratio (nomeBusca row) c2 ≤ s) ∧
      (∀ j c2, j < i → (listaNormDe dfo)[j]? = some c2 →
        token_sort_ratio (nomeBusca row) c2 < s)) := by
  constructor
  · intro hnone
    refine ⟨(melhor_none_iff _ _).1 hnone, ?_⟩
    intro tca tcl u
    have h4 : ¬((nomeBusca row).length < 4) := by omega
    simp only [processarAluno, if_neg h4, hnone]
  · intro c s i h
    exact melhor_spec _ _ c s i h

def linhaC3W : LinhaAluno := ⟨some (s2n "AAAAAAAAAAAAAAAAAAAA"), none⟩

def dfoC3W : List LinhaOficial :=
  [⟨some (s2n "AAAAAAAAAAAAAAAAABBB"), none⟩, ⟨some (s2n "AAAAAAAAAAAAAAAAACCC"), none⟩]

/-- C3 witness: a reference list with two entries tied at score exactly 85;
the matcher accepts the boundary score and selects the first of the tie. -/
theorem rastreador_C3_witness :
    melhor (nomeBusca linhaC3W) (listaNormDe dfoC3W) =
      some (s2n "AAAAAAAAAAAAAAAAABBB", 85, 0) ∧
    (listaNormDe dfoC3W)[0]? = some (s2n "AAAAAAAAAAAAAAAAABBB") ∧
    (∀ c2 ∈ listaNormDe dfoC3W, token_sort_ratio (nomeBusca linhaC3W) c2 ≤ 85) := by
  have hm : melhor (nomeBusca linhaC3W) (listaNormDe dfoC3W) =
      some (s2n "AAAAAAAAAAAAAAAAABBB", 85, 0) := by decide
  have h := (rastreador_C3 dfoC3W linhaC3W (by decide)).2 _ 85 0 hm
  exact ⟨hm, h.1, h.2.2.2.1⟩

/-- C6: structured route without document validation: score at least 95 gives
an approved row, score in [88, 95) gives a verify-spelling row, and score
below 88 (hence in [85, 88), since the match passed the cutoff) gives no row. -/
theorem rastreador_C6 (dfo : List LinhaOficial) (row : LinhaAluno) (tca tcl : Bool)
    (c : List Nat) (s : ℚ) (i : Nat)
    (hlen : 4 ≤ (nomeBusca row).length)
    (hm : melhor (nomeBusca row) (listaNormDe dfo) = some (c, s, i)) :
    (95 ≤ s → processarAluno dfo tca tcl false row =
      some ⟨pyStr row.nome, ((listaOrigDe dfo)[i]?).getD [], s, "✅ Aprovado", ""⟩) ∧
    (88 ≤ s ∧ s < 95 → processarAluno dfo tca tcl false row =
      some ⟨pyStr row.nome, ((listaOrigDe dfo)[i]?).getD [], s, "🔍 Verificar grafia", ""⟩) ∧
    (s < 88 → processarAluno dfo tca tcl false row = none) ∧
    85 ≤ s := by
  have h4 : ¬((nomeBusca row).length < 4) := by omega
  refine ⟨?_, ?_, ?_, (melhor_spec _ _ _ _ _ hm).2.2.1⟩
  · intro h95
    simp only [processarAluno, if_neg h4, hm, Bool.false_and]
    rw [if_neg (by simp), if_pos h95]
  · intro h88
    simp only [processarAluno, if_neg h4, hm, Bool.false_and]
    rw [if_neg (by simp), if_neg (not_le.2 h88.2), if_pos h88.1]
  · intro hlt
    simp only [processarAluno, if_neg h4, hm, Bool.false_and]
    rw [if_neg (by simp), if_neg (by exact not_le.2 (lt_trans hlt (by norm_num))),
        if_neg (not_le.2 hlt)]

def linhaC6W : LinhaAluno := ⟨some (s2n "MARIA SILVA"), none⟩

def dfoC6W : List LinhaOficial := [⟨some (s2n "MARIA SILVO"), none⟩]

/-- C6 witness: a concrete pair scoring 1000/11 ≈ 90.9, inside [88, 95),
yields the verify-spelling row. -/
theorem rastreador_C6_witness :
    processarAluno dfoC6W false false false linhaC6W =
      some ⟨s2n "MARIA SILVA", s2n "MARIA SILVO", mkRat 1000 11, "🔍 Verificar grafia", ""⟩ :=
  (rastreador_C6 dfoC6W linhaC6W false false (s2n "MARIA SILVO") (mkRat 1000 11) 0
    (by decide) (by decide)).2.1 ⟨by decide, by decide⟩

/-- C2: structured route with document validation (all document columns
identified): a fragment of the candidate document occurring inside the
positionally fetched reference document gives an approved row; with no
fragment hit, a verify-homonym row is emitted exactly when the score is at
least 98, and nothing is emitted when the score is below 98. -/
theorem rastreador_C2 (dfo : List LinhaOficial) (row : LinhaAluno)
    (c : List Nat) (s : ℚ) (i : Nat)
    (hlen : 4 ≤ (nomeBusca row).length)
    (hm : melhor (nomeBusca row) (listaNormDe dfo) = some (c, s, i)) :
    ((obter_fragmentos_cpf (some (limpar_numeros row.cpf))).any
        (fun frag => ehTrecho frag (docListaEm dfo i)) = true →
      processarAluno dfo true true true row =
        some ⟨pyStr row.nome, ((listaOrigDe dfo)[i]?).getD [], s, "✅ Aprovado",
              "Nome e Documento conferem."⟩) ∧
    ((obter_fragmentos_cpf (some (limpar_numeros row.cpf))).any
        (fun frag => ehTrecho frag (docListaEm dfo i)) = false →
      (98 ≤ s → processarAluno dfo true true true row =
        some ⟨pyStr row.nome, ((listaOrigDe dfo)[i]?).getD [], s, "⚠️ Verificar Homônimo",
              "Nome bate, mas documento diverge."⟩) ∧
      (s < 98 → processarAluno dfo true true true row = none)) := by
  have h4 : ¬((nomeBusca row).length < 4) := by omega
  constructor
  · intro hfrag
    simp only [processarAluno, if_neg h4, hm, Bool.and_self]
    rw [if_pos True.intro, if_pos hfrag]
  · intro hfrag
    constructor
    · intro h98
      simp only [processarAluno, if_neg h4, hm, Bool.and_self]
      rw [if_pos True.intro, if_neg (by simp [hfrag]), if_pos h98]
    · intro hlt
      simp only [processarAluno, if_neg h4, hm, Bool.and_self]
      rw [if_pos True.intro, if_neg (by simp [hfrag]), if_neg (not_le.2 hlt)]

def linhaC2W : LinhaAluno := ⟨some (s2n "MARIA SILVA"), some (s2n "111.222.333-44")⟩

def dfoC2W : List LinhaOficial := [⟨some (s2n "MARIA SILVA"), some (s2n "11122233344")⟩]

/-- C2 witness: fragment `111` of the candidate document occurs in the
reference document, so the approved row is emitted. -/
theorem rastreador_C2_witness :
    processarAluno dfoC2W true true true linhaC2W =
      some ⟨s2n "MARIA SILVA", s2n "MARIA SILVA", 100, "✅ Aprovado",
            "Nome e Documento conferem."⟩ :=
  (rastreador_C2 dfoC2W linhaC2W (s2n "MARIA SILVA") 100 0
    (by decide) (by decide)).1 (by decide)

/-! Substring search lemmas for the corpus route. -/

lemma ehPrefixo_iff : ∀ (p l : List Nat), ehPrefixo p l = true ↔ ∃ v, l = p ++ v := by
  intro p
  induction p with
  | nil => intro l; simp [ehPrefixo]
  | cons a as ih =>
    intro l
    cases l with
    | nil => simp [ehPrefixo]
    | cons b bs =>
      rw [ehPrefixo, Bool.and_eq_true, beq_iff_eq]
      constructor
      · rintro ⟨rfl, h2⟩
        obtain ⟨v, rfl⟩ := (ih bs).1 h2
        exact ⟨v, rfl⟩
      · rintro ⟨v, hv⟩
        injection hv with h1 h2
        exact ⟨h1.symm, (ih bs).2 ⟨v, h2⟩⟩

lemma localizar_iff (pat : List Nat) :
    ∀ l, (localizar pat l).isSome = true ↔ ∃ u v, l = u ++ (pat ++ v) := by
  intro l
  induction l with
  | nil =>
    rw [localizar]
    by_cases hp : ehPrefixo pat [] = true
    · rw [if_pos hp]
      simp only [Option.isSome_some, true_iff]
      obtain ⟨v, hv⟩ := (ehPrefixo_iff pat []).1 hp
      exact ⟨[], v, by simpa using hv⟩
    · rw [if_neg hp]
      simp only [Option.isSome_none, Bool.false_eq_true, false_iff]
      rintro ⟨u, v, huv⟩
      rcases List.append_eq_nil.1 huv.symm with ⟨rfl, h2⟩
      rcases List.append_eq_nil.1 h2 with ⟨rfl, rfl⟩
      exact hp rfl
  | cons c ts ih =>
    rw [localizar]
    by_cases hp : ehPrefixo pat (c :: ts) = true
    · rw [if_pos hp]
      simp only [Option.isSome_some, true_iff]
      obtain ⟨v, hv⟩ := (ehPrefixo_iff _ _).1 hp
      exact ⟨[], v, by simpa using hv⟩
    · rw [if_neg hp]
      constructor
      · intro hs
        have hts : (localizar pat ts).isSome = true := by
          cases hl : localizar pat ts with
          | none => rw [hl] at hs; simp at hs
          | some j => rfl
        obtain ⟨u, v, huv⟩ := ih.1 hts
        exact ⟨c :: u, v, by rw [huv]; rfl⟩
      · rintro ⟨u, v, huv⟩
        cases u with
        | nil =>
          rw [List.nil_append] at huv
          exact absurd ((ehPrefixo_iff _ _).2 ⟨v, huv⟩) hp
        | cons x u2 =>
          injection huv with h1 h2
          have hts : (localizar pat ts).isSome = true := ih.2 ⟨u2, v, h2⟩
          cases hl : localizar pat ts with
          | none => rw [hl] at hts; simp at hts
          | some j => rfl

/-- C4: corpus route: a row is emitted for a candidate exactly when its
normalized name has at least 4 characters and occurs verbatim as a contiguous
substring of the reference text, and every emitted row carries the fixed
score 100 (and records the normalized name that was searched). -/
theorem rastreador_C4 (texto : List Nat) (temCpf usar : Bool) (row : LinhaAluno) :
    ((buscarAluno texto temCpf usar row).isSome = true ↔
      (4 ≤ (normalizar_texto row.nome).length ∧
        ∃ u v, texto = u ++ (normalizar_texto row.nome ++ v))) ∧
    (∀ r, buscarAluno texto temCpf usar row = some r →
      r.score = 100 ∧ r.nomeDetectado = normalizar_texto row.nome) := by
  by_cases h4 : (normalizar_texto row.nome).length < 4
  · constructor
    · simp only [buscarAluno, if_pos h4]
      constructor
      · intro h; simp at h
      · rintro ⟨h, _⟩; omega
    · intro r hr
      simp only [buscarAluno, if_pos h4] at hr
      simp at hr
  · cases hloc : localizar (normalizar_texto row.nome) texto with
    | none =>
      constructor
      · simp only [buscarAluno, if_neg h4, hloc]
        constructor
        · intro h; simp at h
        · rintro ⟨_, u, v, huv⟩
          have hs := (localizar_iff _ texto).2 ⟨u, v, huv⟩
          rw [hloc] at hs; simp at hs
      · intro r hr
        simp only [buscarAluno, if_neg h4, hloc] at hr
        simp at hr
    | some i =>
      constructor
      · simp only [buscarAluno, if_neg h4, hloc]
        constructor
        · intro _
          refine ⟨by omega, ?_⟩
          have hs : (localizar (normalizar_texto row.nome) texto).isSome = true := by
            rw [hloc]; rfl
          exact (localizar_iff _ texto).1 hs
        · intro _
          split_ifs <;> simp
      · intro r hr
        simp only [buscarAluno, if_neg h4, hloc] at hr
        split_ifs at hr <;> (injection hr with h; rw [← h]; exact ⟨rfl, rfl⟩)

def linhaC4W : LinhaAluno := ⟨some (s2n "Maria  Silva"), none⟩

def resC4W : Resultado :=
  ⟨s2n "Maria  Silva", s2n "MARIA SILVA", 100, "✅ Aprovado (Nome encontrado)",
   "Validação feita apenas por nome."⟩

/-- C4 witness: the normalized name `MARIA SILVA` occurs in the corpus, a row
is emitted and it carries score 100. -/
theorem rastreador_C4_witness :
    (buscarAluno (s2n "XX MARIA SILVA YY") false false linhaC4W).isSome = true ∧
    resC4W.score = 100 ∧ resC4W.nomeDetectado = normalizar_texto linhaC4W.nome :=
  ⟨(rastreador_C4 (s2n "XX MARIA SILVA YY") false false linhaC4W).1.2
      ⟨by decide, s2n "XX ", s2n " YY", by decide⟩,
   (rastreador_C4 (s2n "XX MARIA SILVA YY") false false linhaC4W).2 resC4W (by decide)⟩

lemma janela_take (texto : List Nat) (i len : Nat) :
    janelaContexto texto i len =
      (texto.take (min texto.length (i + len + 50))).drop (i - 50) :=
  (List.drop_take _ _ _).symm

/-- C5: corpus route with document validation and an identified document
column, for a found candidate: an empty fragment set gives the
approved-name-only row; otherwise the context window is the slice of the
normalized text from 50 before the match start to 50 after the match end
(clamped at both bounds), and after discarding the non-digits of that window a
fragment hit gives the approved-confirmed row while no hit gives the
verify-document-divergent row. -/
theorem rastreador_C5 (texto : List Nat) (row : LinhaAluno) (i : Nat)
    (hlen : 4 ≤ (normalizar_texto row.nome).length)
    (hloc : localizar (normalizar_texto row.nome) texto = some i) :
    (obter_fragmentos_cpf row.cpf = [] → buscarAluno texto true true row =
      some ⟨pyStr row.nome, normalizar_texto row.nome, 100,
            "✅ Aprovado (Nome encontrado)",
            "CPF do aluno inválido/incompleto, validado apenas por nome."⟩) ∧
    (obter_fragmentos_cpf row.cpf ≠ [] →
      janelaContexto texto i (normalizar_texto row.nome).length =
        (texto.take (min texto.length (i + (normalizar_texto row.nome).length + 50))).drop
          (i - 50) ∧
      ((obter_fragmentos_cpf row.cpf).any (fun frag =>
          ehTrecho frag ((janelaContexto texto i
            (normalizar_texto row.nome).length).filter (fun c => isDigitoN c))) = true →
        buscarAluno texto true true row =
          some ⟨pyStr row.nome, normalizar_texto row.nome, 100, "✅ Aprovado (Confirmado)",
                "Nome encontrado e parte do CPF identificada próxima."⟩) ∧
      ((obter_fragmentos_cpf row.cpf).any (fun frag =>
          ehTrecho frag ((janelaContexto texto i
            (normalizar_texto row.nome).length).filter (fun c => isDigitoN c))) = false →
        buscarAluno texto true true row =
          some ⟨pyStr row.nome, normalizar_texto row.nome, 100,
                "⚠️ Verificar (CPF Divergente)",
                "Nome encontrado, mas nenhum trecho do CPF foi achado por perto."⟩)) := by
  have h4 : ¬((normalizar_texto row.nome).length < 4) := by omega
  constructor
  · intro hfrag
    simp only [buscarAluno, if_neg h4, hloc, Bool.and_self]
    rw [if_pos True.intro, if_pos hfrag]
  · intro hfrag
    refine ⟨janela_take _ _ _, ?_, ?_⟩
    · intro hany
      simp only [buscarAluno, if_neg h4, hloc, Bool.and_self]
      rw [if_pos True.intro, if_neg hfrag, if_pos hany]
    · intro hany
      simp only [buscarAluno, if_neg h4, hloc, Bool.and_self]
      rw [if_pos True.intro, if_neg hfrag, if_neg (by simp [hany])]

def linhaC5W : LinhaAluno := ⟨some (s2n "MARIA SILVA"), some (s2n "111.222.333-44")⟩

def textoC5W : List Nat := s2n "111 222 333 44 MARIA SILVA"

/-- C5 witness: the fragment `111` appears among the digits of the context
window around the match, so the approved-confirmed row is emitted. -/
theorem rastreador_C5_witness :
    localizar (normalizar_texto linhaC5W.nome) textoC5W = some 15 ∧
    buscarAluno textoC5W true true linhaC5W =
      some ⟨s2n "MARIA SILVA", s2n "MARIA SILVA", 100, "✅ Aprovado (Confirmado)",
            "Nome encontrado e parte do CPF identificada próxima."⟩ := by
  have hl : localizar (normalizar_texto linhaC5W.nome) textoC5W = some 15 := by decide
  exact ⟨hl,
    ((rastreador_C5 textoC5W linhaC5W 15 (by decide) hl).2 (by decide)).2.1 (by decide)⟩

/-! C1: behaviour when document validation is requested but a document column
was not identified. -/

def linhaC1W : LinhaAluno := ⟨some (s2n "MARIA SILVA"), none⟩

def dfoC1W : List LinhaOficial := [⟨some (s2n "MARIA SILVA"), some (s2n "11122233344")⟩]

/-- C1 counterexample: document validation requested (`usar_cpf = true`) with
no document column identified on the candidate table (`temCpfAluno = false`):
the run does not abort with a precondition-failure row — it emits an ordinary
per-candidate approved row. -/
theorem rastreador_C1_counterexample :
    processar_conferencia [linhaC1W] true false (.tabela dfoC1W true) true =
      Report.linhas [⟨s2n "MARIA SILVA", s2n "MARIA SILVA", 100, "✅ Aprovado", ""⟩] := by
  decide

lemma buscarAluno_downgrade (texto : List Nat) (row : LinhaAluno) (u : Bool) :
    buscarAluno texto false u row = buscarAluno texto false false row := by
  simp only [buscarAluno, Bool.and_false]

lemma processarAluno_down1 (dfo : List LinhaOficial) (tcl u : Bool) (row : LinhaAluno) :
    processarAluno dfo false tcl u row = processarAluno dfo false tcl false row := by
  simp only [processarAluno, Bool.and_false, Bool.false_and]

lemma processarAluno_down2 (dfo : List LinhaOficial) (tca u : Bool) (row : LinhaAluno) :
    processarAluno dfo tca false u row = processarAluno dfo tca false false row := by
  simp only [processarAluno, Bool.and_false, Bool.false_and]

lemma corrido_downgrade (df : List LinhaAluno) (texto : List Nat) (u : Bool) :
    buscar_em_texto_corrido df texto false u = buscar_em_texto_corrido df texto false false := by
  have hfun : buscarAluno texto false u = buscarAluno texto false false :=
    funext (fun row => buscarAluno_downgrade texto row u)
  rw [buscar_em_texto_corrido, buscar_em_texto_corrido, hfun]

lemma estruturada_down1 (df : List LinhaAluno) (dfo : List LinhaOficial) (tcl u : Bool) :
    rotaEstruturada df dfo false tcl u = rotaEstruturada df dfo false tcl false := by
  have hfun : processarAluno dfo false tcl u = processarAluno dfo false tcl false :=
    funext (fun row => processarAluno_down1 dfo tcl u row)
  rw [rotaEstruturada, rotaEstruturada, hfun]

lemma estruturada_down2 (df : List LinhaAluno) (dfo : List LinhaOficial) (tca u : Bool) :
    rotaEstruturada df dfo tca false u = rotaEstruturada df dfo tca false false := by
  have hfun : processarAluno dfo tca false u = processarAluno dfo tca false false :=
    funext (fun row => processarAluno_down2 dfo tca u row)
  rw [rotaEstruturada, rotaEstruturada, hfun]

/-- C1 (amended): when document validation is requested but the document
column is missing on a required side — the candidate table in either route, or
the reference table in the structured route — the run does not abort: it
silently downgrades to exactly the name-only behaviour (`usar_cpf = false`),
producing the same report, with no precondition-failure row. -/
theorem rastreador_C1_amended :
    (∀ (df : List LinhaAluno) (tn : Bool) (fonte : FonteReferencia),
      processar_conferencia df tn false fonte true =
        processar_conferencia df tn false fonte false) ∧
    (∀ (df : List LinhaAluno) (tn tca : Bool) (dfo : List LinhaOficial),
      processar_conferencia df tn tca (.tabela dfo false) true =
        processar_conferencia df tn tca (.tabela dfo false) false) := by
  constructor
  · intro df tn fonte
    cases fonte with
    | pdf texto =>
      simp only [processar_conferencia]
      rw [corrido_downgrade df texto true]
    | tabela dfo tcl =>
      simp only [processar_conferencia]
      rw [estruturada_down1 df dfo tcl true]
  · intro df tn tca dfo
    simp only [processar_conferencia]
    rw [estruturada_down2 df dfo tca true]

/-! C9: alignment of the matched name and the positionally fetched document. -/

def dfoC9mis : List LinhaOficial :=
  [⟨none, some (s2n "11111111111")⟩, ⟨some (s2n "MARIA"), some (s2n "22222222222")⟩]

lemma filterMap_nome_all : ∀ (dfo : List LinhaOficial), (∀ r ∈ dfo, r.nome ≠ none) →
    ∀ (i : Nat) (r : LinhaOficial), dfo[i]? = some r →
    (dfo.filterMap (fun x => x.nome))[i]? = r.nome := by
  intro dfo
  induction dfo with
  | nil => intro h i r hir; simp at hir
  | cons a t ih =>
    intro h i r hir
    obtain ⟨na, hna⟩ : ∃ na, a.nome = some na := by
      cases hv : a.nome
      · exact absurd hv (h a (List.mem_cons_self _ _))
      · exact ⟨_, rfl⟩
    rw [List.filterMap_cons_some (show (fun x : LinhaOficial => x.nome) a = some na from hna)]
    cases i with
    | zero =>
      rw [List.getElem?_cons_zero] at hir
      injection hir with hr
      rw [← hr, List.getElem?_cons_zero, hna]
    | succ k =>
      rw [List.getElem?_cons_succ] at hir
      rw [List.getElem?_cons_succ]
      exact ih (fun r2 hr2 => h r2 (List.mem_cons_of_mem _ hr2)) k r hir

lemma docListaEm_eq (dfo : List LinhaOficial) (i : Nat) (r : LinhaOficial)
    (hir : dfo[i]? = some r) : docListaEm dfo i = limpar_numeros r.cpf := by
  rw [docListaEm, hir]
  rfl

/-- C9: the match index is positional in the dropna'd reference name list
while the compared document is fetched positionally from the full table; when
every reference name is present the two agree row by row, and the concrete
two-row table `dfoC9mis` with an absent first name shows the document fetched
at match index 0 belongs to a different row than the matched name `MARIA`. -/
theorem rastreador_C9 (dfo : List LinhaOficial) (h : ∀ r ∈ dfo, r.nome ≠ none) :
    (∀ i r, dfo[i]? = some r →
      (listaOrigDe dfo)[i]? = r.nome ∧ docListaEm dfo i = limpar_numeros r.cpf) ∧
    ((listaOrigDe dfoC9mis)[0]? = some (s2n "MARIA") ∧
     docListaEm dfoC9mis 0 = s2n "11111111111" ∧
     dfoC9mis[1]? = some ⟨some (s2n "MARIA"), some (s2n "22222222222")⟩) := by
  constructor
  · intro i r hir
    exact ⟨filterMap_nome_all dfo h i r hir, docListaEm_eq dfo i r hir⟩
  · exact ⟨by decide, by decide, by decide⟩

def dfoC9W : List LinhaOficial := [⟨some (s2n "ANA LIMA"), some (s2n "12345678901")⟩]

/-- C9 witness: with every reference name present, the matched name and the
fetched document at index 0 come from the same row. -/
theorem rastreador_C9_witness :
    (listaOrigDe dfoC9W)[0]? = some (s2n "ANA LIMA") ∧
    docListaEm dfoC9W 0 = s2n "12345678901" := by
  have h := (rastreador_C9 dfoC9W (by decide)).1 0
    ⟨some (s2n "ANA LIMA"), some (s2n "12345678901")⟩ rfl
  exact ⟨h.1, by rw [h.2]; decide⟩

/-! C10: every call returns at least one explanatory row. -/

lemma inserir_ne_nil {α : Type} (le : α → α → Bool) (x : α) (l : List α) :
    inserir le x l ≠ [] := by
  cases l with
  | nil => simp [inserir]
  | cons y ys =>
    rw [inserir]
    split_ifs <;> simp

lemma ordenar_eq_nil {α : Type} (le : α → α → Bool) (l : List α)
    (h : ordenar le l = []) : l = [] := by
  cases l with
  | nil => rfl
  | cons x xs =>
    rw [ordenar] at h
    exact absurd h (inserir_ne_nil le x (ordenar le xs))

lemma corrido_empty (df : List LinhaAluno) (texto : List Nat) (tc u : Bool)
    (h : df.filterMap (buscarAluno texto tc u) = []) :
    buscar_em_texto_corrido df texto tc u =
      Report.resultado "Nenhum aluno encontrado no arquivo enviado." := by
  rw [buscar_em_texto_corrido]
  simp only [h, if_pos]

lemma estruturada_empty (df : List LinhaAluno) (dfo : List LinhaOficial) (tca tcl u : Bool)
    (h : df.filterMap (processarAluno dfo tca tcl u) = []) :
    rotaEstruturada df dfo tca tcl u = Report.resultado "Nenhum match encontrado." := by
  rw [rotaEstruturada]
  simp only [h, if_pos]

lemma corrido_ne_nil (df : List LinhaAluno) (texto : List Nat) (tc u : Bool) :
    buscar_em_texto_corrido df texto tc u ≠ Report.linhas [] := by
  rw [buscar_em_texto_corrido]
  by_cases hres : df.filterMap (buscarAluno texto tc u) = []
  · rw [if_pos hres]; simp
  · rw [if_neg hres]
    intro hcontra
    injection hcontra with h2
    exact hres (ordenar_eq_nil _ _ h2)

lemma estruturada_ne_nil (df : List LinhaAluno) (dfo : List LinhaOficial) (tca tcl u : Bool) :
    rotaEstruturada df dfo tca tcl u ≠ Report.linhas [] := by
  rw [rotaEstruturada]
  by_cases hres : df.filterMap (processarAluno dfo tca tcl u) = []
  · rw [if_pos hres]; simp
  · rw [if_neg hres]
    intro hcontra
    injection hcontra with h2
    exact hres (ordenar_eq_nil _ _ h2)

/-- C10: a reconciliation call never returns an empty row frame: when the
selected matcher appends zero candidate rows (in particular on an empty
candidate table) the result is the route's single informational no-match row,
which is a different frame from a precondition-failure (`erro`) row. -/
theorem rastreador_C10 :
    (∀ (df : List LinhaAluno) (tn tc : Bool) (fonte : FonteReferencia) (u : Bool),
        processar_conferencia df tn tc fonte u ≠ Report.linhas []) ∧
    (∀ (df : List LinhaAluno) (texto : List Nat) (tc u : Bool),
        df.filterMap (buscarAluno texto tc u) = [] →
        buscar_em_texto_corrido df texto tc u =
          Report.resultado "Nenhum aluno encontrado no arquivo enviado.") ∧
    (∀ (df : List LinhaAluno) (dfo : List LinhaOficial) (tca tcl u : Bool),
        df.filterMap (processarAluno dfo tca tcl u) = [] →
        rotaEstruturada df dfo tca tcl u = Report.resultado "Nenhum match encontrado.") ∧
    (∀ (tc : Bool) (dfo : List LinhaOficial) (tcl u : Bool),
        processar_conferencia [] true tc (.tabela dfo tcl) u =
          Report.resultado "Nenhum match encontrado.") ∧
    (∀ (tc u : Bool) (texto : List Nat), texto ≠ [] →
        processar_conferencia [] true tc (.pdf texto) u =
          Report.resultado "Nenhum aluno encontrado no arquivo enviado.") ∧
    (∀ s t, Report.resultado s ≠ Report.erro t) := by
  refine ⟨?_, corrido_empty, estruturada_empty, ?_, ?_, ?_⟩
  · intro df tn tc fonte u
    cases tn with
    | false => simp [processar_conferencia]
    | true =>
      cases fonte with
      | pdf texto =>
        by_cases ht : texto = []
        · simp [processar_conferencia, ht]
        · simp only [processar_conferencia, Bool.not_true, if_neg ht]
          rw [if_neg (by simp)]
          exact corrido_ne_nil df texto tc u
      | tabela dfo tcl =>
        simp only [processar_conferencia, Bool.not_true]
        rw [if_neg (by simp)]
        exact estruturada_ne_nil df dfo tc tcl u
  · intro tc dfo tcl u
    simp only [processar_conferencia, Bool.not_true]
    rw [if_neg (by simp)]
    exact estruturada_empty [] dfo tc tcl u rfl
  · intro tc u texto ht
    simp only [processar_conferencia, Bool.not_true]
    rw [if_neg (by simp), if_neg ht]
    exact corrido_empty [] texto tc u rfl
  · intro s t h
    exact Report.noConfusion h

/-- C10 witness: an empty candidate table against a non-empty corpus yields
the single informational no-match row. -/
theorem rastreador_C10_witness :
    processar_conferencia [] true false (.pdf (s2n "LISTA")) false =
      Report.resultado "Nenhum aluno encontrado no arquivo enviado." :=
  rastreador_C10.2.2.2.2.1 false false (s2n "LISTA") (by decide)
